import Mathlib

/-!
Shallow embedding of the wave-function-collapse solver in `src/collapse.rs`
(types `Field`, `Change`, `Decision`, `DecisionTree`, the `Array2D` grid,
and the functions `fits`, `find_lowest_entropy`, `chose_field`,
`apply_contrainst_sides`, `apply_contrainst_field`, `propagate`, `undo`,
`collapse_wave`), together with theorems settling the specification claims.

Modelling conventions:
* Rust `Vec` stacks (`changes`, `decisions`) are Lean lists with the head as
  the top of the stack (`push` = cons, `pop` = head/tail, `last()` = head).
* The `HashSet<Decision>` of forbidden decisions is a duplicate-free list;
  `insert` adds the element only when it is not already present.  Every use
  of the set in the source is order-insensitive, so the list order is
  irrelevant.
* `SmallRng` is modelled as an arbitrary stream of naturals together with a
  cursor; `gen_range(0..n)` reads the current value modulo `n` and advances
  the cursor.  `gen_range` over an empty range panics, as in Rust.
* Rust panics (`unwrap` on `None`, out-of-range indexing, debug-mode
  underflow of `usize` subtraction) are modelled by the `Res.crashed`
  outcome.  The unbounded solver loop and the propagation worklist loop are
  given explicit fuel; exhaustion is the distinct outcome `Res.outOfFuel`.
* `Array2D` (crate `array2d`) stores its elements in row-major order;
  `get`/`set` take (row, column); `row_len()` is the number of columns and
  `column_len()` the number of rows, exactly as in the crate.
-/

namespace Collapse

/-- One tile variant, mirroring `struct Field` (img_name, rotation, sides
`[N, E, S, W]`, weight). -/
structure Field where
  img_name : String
  rotation : Int
  sides : List String
  weight : Nat
deriving DecidableEq, Repr

/-- Grid coordinate, mirroring `struct Coord`. -/
structure Coord where
  x : Nat
  y : Nat
deriving DecidableEq, Repr

/-- Undo-log entry, mirroring `struct Change`. -/
structure Change where
  old : List Field
  chosen : Bool
  pos : Coord
deriving DecidableEq, Repr

/-- Collapse record, mirroring `struct Decision`. -/
structure Decision where
  previous_id : Option Nat
  pos : Coord
  to_field : Field
  id : Nat
deriving DecidableEq, Repr

/-- Mirror of `struct DecisionTree`; list heads are stack tops. -/
structure DecisionTree where
  changes : List Change
  decisions : List Decision
  forbidden_decisions : List Decision
  id_counter : Nat
deriving DecidableEq, Repr

/-- Mirror of `DecisionTree::new()`. -/
def DecisionTree.new : DecisionTree := ⟨[], [], [], 0⟩

/-- Mirror of the `array2d::Array2D` grid: row-major data with explicit
row/column counts. -/
structure Array2D (α : Type) where
  num_rows : Nat
  num_cols : Nat
  data : List α
deriving DecidableEq, Repr

/-- Mirror of `Array2D::filled_with(element, num_rows, num_columns)`. -/
def Array2D.filled_with {α : Type} (e : α) (rows cols : Nat) : Array2D α :=
  ⟨rows, cols, List.replicate (rows * cols) e⟩

/-- Mirror of `Array2D::get(row, column)` (checked, row-major). -/
def Array2D.get {α : Type} (a : Array2D α) (r c : Nat) : Option α :=
  if r < a.num_rows ∧ c < a.num_cols then a.data.get? (r * a.num_cols + c) else none

/-- Mirror of `Array2D::set(row, column, element)`; out-of-bounds leaves the grid
unchanged (the crate returns `Err` without mutating). -/
def Array2D.set {α : Type} (a : Array2D α) (r c : Nat) (v : α) : Array2D α :=
  if r < a.num_rows ∧ c < a.num_cols then
    { a with data := a.data.set (r * a.num_cols + c) v }
  else a

/-- Mirror of `Array2D::row_len()`: the number of columns. -/
def Array2D.row_len {α : Type} (a : Array2D α) : Nat := a.num_cols

/-- Mirror of `Array2D::column_len()`: the number of rows. -/
def Array2D.column_len {α : Type} (a : Array2D α) : Nat := a.num_rows

/-- Mirror of `struct Params`: the catalog plus the four boundary sides
(`sides[0]` north, `sides[1]` east, `sides[2]` south, `sides[3]` west). -/
structure Params where
  fields : List Field
  sides0 : List (List Field)
  sides1 : List (List Field)
  sides2 : List (List Field)
  sides3 : List (List Field)
deriving DecidableEq, Repr

/-- Outcome of a solver computation: success, the `NotCollapsable` error, a
Rust panic, or fuel exhaustion of the model. -/
inductive Res (α : Type) where
  | ok (a : α)
  | notCollapsable
  | crashed
  | outOfFuel
deriving DecidableEq, Repr

/-- Failure kind of the propagator (which additionally reports its final
state, since the Rust code mutates the wave in place before failing). -/
inductive PErr where
  | notCollapsable
  | crashed
  | outOfFuel
deriving DecidableEq, Repr

/-- Deterministic stream model of the seeded `SmallRng`. -/
structure Rng where
  vals : List Nat
  idx : Nat
deriving DecidableEq, Repr

/-- Mirror of `rng.gen_range(0..n)`: next stream value modulo `n`; panics when the
range is empty, as `gen_range` does. -/
def Rng.gen_range (r : Rng) (n : Nat) : Res (Nat × Rng) :=
  if n = 0 then .crashed
  else .ok (r.vals.getD r.idx 0 % n, ⟨r.vals, r.idx + 1⟩)

/-- First-occurrence deduplication, the common semantics of
`itertools::unique()` and the `clear_duplicates` helper in the source. -/
def uniqueKeepFirst {α : Type} [DecidableEq α] (l : List α) : List α :=
  l.foldl (fun acc x => if x ∈ acc then acc else acc ++ [x]) []

/-- Rust `str::split('-')`, over the label's character list: the list of
(possibly empty) fragments between the `-` separators. -/
def splitDash : List Char → List (List Char)
  | [] => [[]]
  | c :: rest =>
    let r := splitDash rest
    if c = '-' then [] :: r
    else (c :: r.headD []) :: r.tail

/-- Rust `str::starts_with("u_")` on a token. -/
def startsWithU : List Char → Bool
  | 'u' :: '_' :: _ => true
  | _ => false

/-- Mirror of `fn fits(a, b)`: tokenize both labels at `-`; malformed labels
never fit; identical `u_` flags never fit; `i`/`i` or `q`/`p` with equal
classes fit.  Tokens are handled as character lists (`String.data`), with
`splitDash`/`startsWithU` playing the roles of `split('-')` and
`starts_with("u_")`. -/
def fits (a b : String) : Bool :=
  let av := splitDash a.data
  let bv := splitDash b.data
  if av.length < 2 ∨ bv.length < 2 then
    false
  else
    let af := av.getD 0 []
    let bf := bv.getD 0 []
    let an := av.getD 1 []
    let bn := bv.getD 1 []
    let a_flag := av.getD 2 ['n', 'o', 'n', 'e']
    let b_flag := bv.getD 2 ['n', 'o', 'n', 'e']
    if startsWithU a_flag ∧ startsWithU b_flag ∧ a_flag = b_flag then
      false
    else if af = ['i'] ∧ bf = ['i'] ∧ an = bn then
      true
    else if ((af = ['q'] ∧ bf = ['p']) ∨ (af = ['p'] ∧ bf = ['q'])) ∧ an = bn then
      true
    else
      false

/-- Mirror of `DecisionTree::decide(wave, pos, to)`: push a `chosen` change holding the
cell's current list, then push a decision whose `previous_id` is copied from
the current top decision's `previous_id` (`None` when the stack is empty). -/
def DecisionTree.decide (t : DecisionTree) (wave : Array2D (List Field))
    (pos : Coord) (to_field : Field) : Res DecisionTree :=
  match wave.get pos.y pos.x with
  | none => .crashed
  | some old =>
    let t1 : DecisionTree := { t with changes := ⟨old, true, pos⟩ :: t.changes }
    let d : Decision :=
      ⟨(t1.decisions.head?.map Decision.previous_id).getD none, pos, to_field, t1.id_counter⟩
    .ok { t1 with id_counter := t1.id_counter + 1, decisions := d :: t1.decisions }

/-- Mirror of `DecisionTree::forbid_last_decision()`: with an empty decision stack,
`NotCollapsable`; otherwise retain in the forbidden set exactly the entries
whose `previous_id` differs from the top decision's, then pop the top
decision and insert it into the set. -/
def DecisionTree.forbid_last_decision (t : DecisionTree) : Res DecisionTree :=
  match t.decisions with
  | [] => .notCollapsable
  | top :: rest =>
    let kept := t.forbidden_decisions.filter (fun d => d.previous_id != top.previous_id)
    let forb := if top ∈ kept then kept else top :: kept
    .ok { t with decisions := rest, forbidden_decisions := forb }

/-- Mirror of `DecisionTree::get_forbidden_options(pos)`: the chosen fields of the
forbidden decisions whose `previous_id` matches the current top decision's
`previous_id` and whose position is `pos`. -/
def DecisionTree.get_forbidden_options (t : DecisionTree) (pos : Coord) : List Field :=
  (t.forbidden_decisions.filter (fun d =>
      d.previous_id == (t.decisions.head?.map Decision.previous_id).getD none
        && d.pos == pos)).map Decision.to_field

/-- Mirror of `fn find_lowest_entropy`: scan `cx` over `column_len()`, `cy`
over `row_len()`, reading `wave.get(cy, cx)`; collect the coordinates whose
candidate count equals the running minimum (initialised to the catalog
size); then retain the tied coordinates by the source's predicate, failing
with `NotCollapsable` when the tie set empties, and otherwise pick one at
random. -/
def find_lowest_entropy (params : Params) (rng : Rng) (wave : Array2D (List Field))
    (t : DecisionTree) : Res (Option Coord × Rng) :=
  let idx := (List.range wave.column_len).flatMap (fun cx =>
    (List.range wave.row_len).map (fun cy => (cx, cy)))
  let scan : Res (Nat × List Coord) := idx.foldl (fun acc p =>
    match acc with
    | .ok (low, coords) =>
      match wave.get p.2 p.1 with
      | none => .crashed
      | some c =>
        if c.length = low then .ok (low, coords ++ [⟨p.1, p.2⟩])
        else if 1 < c.length ∧ c.length < low then .ok (c.length, [⟨p.1, p.2⟩])
        else .ok (low, coords)
    | e => e) (.ok (params.fields.length, []))
  match scan with
  | .ok (_, coords) =>
    if coords.isEmpty then .ok (none, rng)
    else
      let retained : Res (List Coord) := coords.foldl (fun acc coord =>
        match acc with
        | .ok l =>
          match wave.get coord.y coord.x with
          | none => .crashed
          | some cell =>
            let forbidden := t.get_forbidden_options coord
            if !(cell.all (fun field => forbidden.any (fun d => d != field))) then
              .ok (l ++ [coord])
            else .ok l
        | e => e) (.ok [])
      match retained with
      | .ok [] => .notCollapsable
      | .ok l =>
        match rng.gen_range l.length with
        | .ok (i, rng1) =>
          match l.get? i with
          | some c => .ok (some c, rng1)
          | none => .crashed
        | .notCollapsable => .notCollapsable
        | .crashed => .crashed
        | .outOfFuel => .outOfFuel
      | .notCollapsable => .notCollapsable
      | .crashed => .crashed
      | .outOfFuel => .outOfFuel
  | .notCollapsable => .notCollapsable
  | .crashed => .crashed
  | .outOfFuel => .outOfFuel

/-- Mirror of `fn chose_field`: expand each field into `weight` copies and
draw one uniformly; panics when the expanded list is empty. -/
def chose_field (rng : Rng) (fields : List Field) : Res (Field × Rng) :=
  let adjusted := fields.flatMap (fun f => List.replicate f.weight f)
  match rng.gen_range adjusted.length with
  | .ok (i, rng1) =>
    match adjusted.get? i with
    | some f => .ok (f, rng1)
    | none => .crashed
  | .notCollapsable => .notCollapsable
  | .crashed => .crashed
  | .outOfFuel => .outOfFuel

/-- Mirror of `fn apply_contrainst_field`: gather the four outer candidate
lists (substituting boundary virtual cells off-grid, with the source's
indexing, including `sides[3].get(pos.x)` for the west side), compute the
deduplicated opposing edge labels, filter the cell, fail on an empty result,
write the result back, and report the recorded change and the neighbor
coordinates when the list shrank or `mark_anyway` is set. -/
def apply_contrainst_field (params : Params) (wave : Array2D (List Field))
    (t : DecisionTree) (pos : Coord) (mark_anyway : Bool) :
    Res (Array2D (List Field) × DecisionTree × List Coord) :=
  let o0 := if pos.y = 0 then params.sides0.get? pos.x else wave.get (pos.y - 1) pos.x
  let o1 := if pos.x + 1 ≥ wave.column_len then params.sides1.get? pos.y
            else wave.get pos.y (pos.x + 1)
  let o2 := if pos.y + 1 ≥ wave.row_len then params.sides2.get? pos.x
            else wave.get (pos.y + 1) pos.x
  let o3 := if pos.x = 0 then params.sides3.get? pos.x else wave.get pos.y (pos.x - 1)
  match o0, o1, o2, o3 with
  | some outer0, some outer1, some outer2, some outer3 =>
    let outer_sides : List (List String) :=
      [uniqueKeepFirst (outer0.map (fun f => f.sides.getD 2 "")),
       uniqueKeepFirst (outer1.map (fun f => f.sides.getD 3 "")),
       uniqueKeepFirst (outer2.map (fun f => f.sides.getD 0 "")),
       uniqueKeepFirst (outer3.map (fun f => f.sides.getD 1 ""))]
    match wave.get pos.y pos.x with
    | none => .crashed
    | some old =>
      let res := old.filter (fun field =>
        outer_sides.enum.all (fun is =>
          is.2.any (fun out => fits out (field.sides.getD is.1 ""))))
      if res.length = 0 then .notCollapsable
      else
        let wave1 := wave.set pos.y pos.x res
        if res.length ≠ old.length ∨ mark_anyway then
          let t1 : DecisionTree := { t with changes := ⟨old, false, pos⟩ :: t.changes }
          let changed : List Coord :=
            (if 0 < pos.x then [⟨pos.x - 1, pos.y⟩] else []) ++
            (if pos.y < wave.column_len - 1 then [⟨pos.x, pos.y + 1⟩] else []) ++
            (if pos.x < wave.row_len - 1 then [⟨pos.x + 1, pos.y⟩] else []) ++
            (if 0 < pos.y then [⟨pos.x, pos.y - 1⟩] else [])
          .ok (wave1, t1, changed)
        else
          .ok (wave1, t, [])
  | _, _, _, _ => .crashed

/-- The `while !next.is_empty()` loop of `fn propagate`: pop from the back of
the worklist, apply the constraint without force-recording, append the
returned neighbors and deduplicate.  Fuelled; on failure the wave and tree
reached so far are reported. -/
def propagate_loop (params : Params) (wave : Array2D (List Field)) (t : DecisionTree)
    (next : List Coord) (fuel : Nat) : Array2D (List Field) × DecisionTree × Option PErr :=
  match fuel with
  | 0 => (wave, t, some .outOfFuel)
  | fuel1 + 1 =>
    match next.getLast? with
    | none => (wave, t, none)
    | some pos =>
      match apply_contrainst_field params wave t pos false with
      | .ok (w1, t1, changed) =>
        propagate_loop params w1 t1 (uniqueKeepFirst (next.dropLast ++ changed)) fuel1
      | .notCollapsable => (wave, t, some .notCollapsable)
      | .crashed => (wave, t, some .crashed)
      | .outOfFuel => (wave, t, some .outOfFuel)

/-- Mirror of `fn propagate`: a singleton worklist is processed first with
`mark_anyway = true`, then the loop runs to fixpoint. -/
def propagate (params : Params) (wave : Array2D (List Field)) (t : DecisionTree)
    (next : List Coord) (fuel : Nat) : Array2D (List Field) × DecisionTree × Option PErr :=
  if next.length = 1 then
    match next.getLast? with
    | none => (wave, t, some .crashed)
    | some pos =>
      match apply_contrainst_field params wave t pos true with
      | .ok (w1, t1, changed) => propagate_loop params w1 t1 (next.dropLast ++ changed) fuel
      | .notCollapsable => (wave, t, some .notCollapsable)
      | .crashed => (wave, t, some .crashed)
      | .outOfFuel => (wave, t, some .outOfFuel)
  else
    propagate_loop params wave t next fuel

/-- Mirror of `fn apply_contrainst_sides`: seed the worklist with the first
and last rows (indexed by `column_len()`) and the first and last columns
(rows `1..row_len()-1`), then propagate.  The `usize` subtractions underflow
(debug-mode panic) when the corresponding dimension is zero. -/
def apply_contrainst_sides (params : Params) (wave : Array2D (List Field))
    (t : DecisionTree) (fuel : Nat) : Array2D (List Field) × DecisionTree × Option PErr :=
  if wave.row_len = 0 then (wave, t, some .crashed)
  else if 3 ≤ wave.row_len ∧ wave.column_len = 0 then (wave, t, some .crashed)
  else
    let next1 := (List.range wave.column_len).flatMap (fun x =>
      [(⟨x, 0⟩ : Coord), ⟨x, wave.row_len - 1⟩])
    let next2 := (List.range' 1 (wave.row_len - 1 - 1)).flatMap (fun y =>
      [(⟨0, y⟩ : Coord), ⟨wave.column_len - 1, y⟩])
    propagate params wave t (next1 ++ next2) fuel

/-- The change-popping loop of `fn undo`: restore each popped non-`chosen`
change; when a `chosen` change is popped, stop without restoring it (exactly
as the source's `if cur.chosen { break; }` does). -/
def undo_changes (wave : Array2D (List Field)) :
    List Change → Array2D (List Field) × List Change
  | [] => (wave, [])
  | c :: rest =>
    if c.chosen then (wave, rest)
    else undo_changes (wave.set c.pos.y c.pos.x c.old) rest

/-- Mirror of `fn undo`: pop changes, then `forbid_last_decision`. -/
def undo (wave : Array2D (List Field)) (t : DecisionTree) :
    Res (Array2D (List Field) × DecisionTree) :=
  let wc := undo_changes wave t.changes
  match DecisionTree.forbid_last_decision { t with changes := wc.2 } with
  | .ok t1 => .ok (wc.1, t1)
  | .notCollapsable => .notCollapsable
  | .crashed => .crashed
  | .outOfFuel => .outOfFuel

/-- The final flattening of `collapse_wave`: take each cell's first field
(`first().unwrap()`) and rebuild via
`Array2D::from_iter_row_major(iter, wave.row_len(), wave.column_len())`. -/
def collapse_finish (wave : Array2D (List Field)) : Res (Array2D Field) :=
  match wave.data.mapM List.head? with
  | none => .crashed
  | some elems =>
    if wave.row_len * wave.column_len ≤ elems.length then
      .ok ⟨wave.row_len, wave.column_len, elems.take (wave.row_len * wave.column_len)⟩
    else .crashed

/-- The `while let Some(found) = find_lowest_entropy(...)?` loop of
`fn collapse_wave`, with explicit fuel. -/
def collapse_loop (params : Params) (rng : Rng) (wave : Array2D (List Field))
    (t : DecisionTree) (fuel : Nat) : Res (Array2D Field) :=
  match fuel with
  | 0 => .outOfFuel
  | fuel1 + 1 =>
    match find_lowest_entropy params rng wave t with
    | .ok (none, _) => collapse_finish wave
    | .ok (some found, rng1) =>
      match wave.get found.y found.x with
      | none => .crashed
      | some old =>
        let new := old.filter (fun field =>
          !((t.get_forbidden_options found).any (fun d => d == field)))
        match chose_field rng1 new with
        | .ok (to_field, rng2) =>
          match DecisionTree.decide t wave found to_field with
          | .ok t1 =>
            let wave1 := wave.set found.y found.x [to_field]
            match propagate params wave1 t1 [found] fuel1 with
            | (wave2, t2, none) => collapse_loop params rng2 wave2 t2 fuel1
            | (wave2, t2, some .notCollapsable) =>
              match undo wave2 t2 with
              | .ok (wave3, t3) => collapse_loop params rng2 wave3 t3 fuel1
              | .notCollapsable => .notCollapsable
              | .crashed => .crashed
              | .outOfFuel => .outOfFuel
            | (_, _, some .crashed) => .crashed
            | (_, _, some .outOfFuel) => .outOfFuel
          | .notCollapsable => .notCollapsable
          | .crashed => .crashed
          | .outOfFuel => .outOfFuel
        | .notCollapsable => .notCollapsable
        | .crashed => .crashed
        | .outOfFuel => .outOfFuel
    | .notCollapsable => .notCollapsable
    | .crashed => .crashed
    | .outOfFuel => .outOfFuel

/-- Mirror of `fn collapse_wave`: build the wave of size
`sides[2].len() × sides[0].len()` filled with the catalog, seed from the
boundary, then run the collapse loop. -/
def collapse_wave (params : Params) (rng : Rng) (fuel : Nat) : Res (Array2D Field) :=
  let x_size := params.sides0.length
  let y_size := params.sides2.length
  let wave := Array2D.filled_with params.fields y_size x_size
  match apply_contrainst_sides params wave DecisionTree.new fuel with
  | (w1, t1, none) => collapse_loop params rng w1 t1 fuel
  | (_, _, some .notCollapsable) => .notCollapsable
  | (_, _, some .crashed) => .crashed
  | (_, _, some .outOfFuel) => .outOfFuel

/-! Spec-side notions used to state the claims. -/

/-- Total entropy of a wave: the sum of the candidate-list sizes. -/
def totalEntropy (w : Array2D (List Field)) : Nat :=
  (w.data.map List.length).sum

/-- The in-grid neighbor of cell `(r, c)` of a solved grid in direction
`i` (0 north, 1 east, 2 south, 3 west). -/
def cellNeighbor (g : Array2D Field) (r c : Nat) : Nat → Option Field
  | 0 => if r = 0 then none else g.get (r - 1) c
  | 1 => g.get r (c + 1)
  | 2 => g.get (r + 1) c
  | _ => if c = 0 then none else g.get r (c - 1)

/-- Spec predicate for claim C1: in a solved grid, every pair of orthogonally
adjacent cells must satisfy `fits(opposing_label, facing_label)` — the
neighbor in direction `i` contributes side `(i + 2) % 4`. -/
def gridPairsFit (g : Array2D Field) : Bool :=
  (List.range g.num_rows).all fun r => (List.range g.num_cols).all fun c =>
    match g.get r c with
    | none => true
    | some f =>
      (List.range 4).all fun i =>
        match cellNeighbor g r c i with
        | none => true
        | some nf => fits (nf.sides.getD ((i + 2) % 4) "") (f.sides.getD i "")

/-! Concrete inputs for the claims that are settled by evaluation. -/

/-- All-`i-a` filler tile. -/
def tileF : Field := ⟨"f", 0, ["i-a", "i-a", "i-a", "i-a"], 1⟩

/-- Tile whose east side wants a `q-h` west neighbor and whose south side
wants a `q-v` north side below. -/
def tileP : Field := ⟨"p", 0, ["i-a", "p-h", "p-v", "i-a"], 1⟩

/-- Tile matching `tileP` from the east. -/
def tileQ : Field := ⟨"q", 0, ["i-a", "i-a", "p-x", "q-h"], 1⟩

/-- Tile matching `tileP` from the south. -/
def tileR : Field := ⟨"r", 0, ["q-v", "p-y", "i-a", "i-a"], 1⟩

/-- Tile matching `tileQ` from the south. -/
def tileS1 : Field := ⟨"s1", 0, ["q-x", "i-a", "i-a", "i-a"], 1⟩

/-- Tile matching `tileR` from the east. -/
def tileS2 : Field := ⟨"s2", 0, ["i-a", "i-a", "i-a", "q-y"], 1⟩

/-- Catalog of the C1 failing input. -/
def c1_catalog : List Field := [tileF, tileP, tileQ, tileR, tileS1, tileS2]

/-- C1 failing input: a 2 × 2 grid whose four boundary sides all offer the
full catalog, so that seeding changes nothing. -/
def c1_params : Params :=
  ⟨c1_catalog, [c1_catalog, c1_catalog], [c1_catalog, c1_catalog],
   [c1_catalog, c1_catalog], [c1_catalog, c1_catalog]⟩

/-- C1 failing seed: picks cell (0,0), collapses it to `tileP`; after the
propagation contradiction and the (non-restoring) undo, picks cell (1,0)
and collapses it to `tileF`, which is incompatible with `tileP`. -/
def c1_rng : Rng := ⟨[0, 1, 1, 0], 0⟩

/-- Single-tile catalog used for the C8 input. -/
def c8_params : Params := ⟨[tileF], [[tileF]], [[tileF]], [[tileF]], [[tileF]]⟩

/-- Any stream works for C8; the empty stream reads as constant 0. -/
def c8_rng : Rng := ⟨[], 0⟩

/-- The 1 × 1 wave of the C8 input after seeding (unchanged). -/
def c8_wave0 : Array2D (List Field) := ⟨1, 1, [[tileF]]⟩

/-- A second distinct tile for the C3/C4 inputs. -/
def tileG : Field := ⟨"g", 0, ["i-a", "i-a", "i-a", "i-a"], 2⟩

/-- A third distinct tile for the C4 input. -/
def tileH : Field := ⟨"h", 0, ["i-a", "i-a", "i-a", "i-a"], 3⟩

/-- C3 input: 1 × 1 wave whose only cell was collapsed to `[tileF]`. -/
def c3_wave : Array2D (List Field) := ⟨1, 1, [[tileF]]⟩

/-- C3 input: history holding exactly the `chosen` change of that collapse,
whose snapshot `old = [tileF, tileG]` had entropy 2. -/
def c3_tree : DecisionTree :=
  ⟨[⟨[tileF, tileG], true, ⟨0, 0⟩⟩], [⟨none, ⟨0, 0⟩, tileF, 0⟩], [], 1⟩

/-- The decision tree produced by `undo` on the C3 input. -/
def c3_tree_after : DecisionTree :=
  ⟨[], [], [⟨none, ⟨0, 0⟩, tileF, 0⟩], 1⟩

/-- C4 input: catalog of three distinct tiles. -/
def c4_params : Params :=
  ⟨[tileF, tileG, tileH], [[tileF]], [[tileF]], [[tileF]], [[tileF]]⟩

/-- C4 input: a 1 × 1 wave whose cell still has all three candidates. -/
def c4_wave : Array2D (List Field) := ⟨1, 1, [[tileF, tileG, tileH]]⟩

/-- C4 input: two forbidden decisions at the cell (fields `tileF`, `tileG`),
empty decision stack, so `get_forbidden_options` returns both. -/
def c4_tree : DecisionTree :=
  ⟨[], [], [⟨none, ⟨0, 0⟩, tileF, 0⟩, ⟨none, ⟨0, 0⟩, tileG, 1⟩], 2⟩

/-- C7 input: single-tile catalog, 1 × 1 wave whose only cell is already
collapsed (entropy 1). -/
def c7_params : Params := ⟨[tileF], [[tileF]], [[tileF]], [[tileF]], [[tileF]]⟩

/-- C7 wave: the single cell has candidate list of length 1. -/
def c7_wave : Array2D (List Field) := ⟨1, 1, [[tileF]]⟩

/-- C9 tiles: identical except for the west label (`i-a` vs `i-b`). -/
def tileWa : Field := ⟨"wa", 0, ["i-z", "i-z", "i-z", "i-a"], 1⟩

/-- Variant of `tileWa` whose west label is `i-b`. -/
def tileWb : Field := ⟨"wb", 0, ["i-z", "i-z", "i-z", "i-b"], 1⟩

/-- C9 north neighbor: south label `i-z`. -/
def tileN0 : Field := ⟨"n0", 0, ["i-q", "i-q", "i-z", "i-q"], 1⟩

/-- C9 east neighbor: west label `i-z`. -/
def tileE0 : Field := ⟨"e0", 0, ["i-q", "i-q", "i-q", "i-z"], 1⟩

/-- C9 south boundary virtual tile: north label `i-z`. -/
def tileS0 : Field := ⟨"s0", 0, ["i-z", "i-q", "i-q", "i-q"], 1⟩

/-- C9 west boundary virtual tile at index 0: east label `i-a`. -/
def tileW0 : Field := ⟨"w0", 0, ["i-q", "i-a", "i-q", "i-q"], 1⟩

/-- C9 west boundary virtual tile at index 1: east label `i-b`. -/
def tileW1 : Field := ⟨"w1", 0, ["i-q", "i-b", "i-q", "i-q"], 1⟩

/-- C9 input: west boundary differs at index 0 (east label `i-a`) and
index 1 (east label `i-b`). -/
def c9_params : Params :=
  ⟨[tileWa, tileWb], [[tileN0], [tileN0]], [[tileE0], [tileE0]],
   [[tileS0], [tileS0]], [[tileW0], [tileW1]]⟩

/-- C9 input: 2 × 2 wave; the cell under scrutiny is `(x = 0, y = 1)` with
candidates `[tileWa, tileWb]`; its in-grid neighbors offer `i-z` labels. -/
def c9_wave : Array2D (List Field) :=
  ⟨2, 2, [[tileN0], [tileN0], [tileWa, tileWb], [tileE0]]⟩

/-- C5 counterexample input: top decision has `previous_id = some 5`; the
forbidden set holds one entry with the same `previous_id` and one with a
different one. -/
def c5_e1 : Decision := ⟨some 5, ⟨0, 0⟩, tileF, 0⟩

/-- The differing-`previous_id` forbidden entry of the C5 input. -/
def c5_e2 : Decision := ⟨some 7, ⟨0, 0⟩, tileG, 1⟩

/-- The top decision of the C5 input. -/
def c5_top : Decision := ⟨some 5, ⟨1, 0⟩, tileH, 2⟩

/-- The C5 input tree. -/
def c5_tree : DecisionTree := ⟨[], [c5_top], [c5_e1, c5_e2], 3⟩

/-- The tree `forbid_last_decision` produces on the C5 input: the
matching-`previous_id` entry `c5_e1` is gone, the differing one survives. -/
def c5_tree_after : DecisionTree := ⟨[], [], [c5_top, c5_e2], 3⟩

/-- The grid `collapse_wave` returns on the C1 failing input. -/
def c1_returned : Array2D Field := ⟨2, 2, [tileP, tileF, tileF, tileF]⟩

/-- The wave after the C9 call: the cell kept only the candidate compatible
with the west boundary's entry at index 0. -/
def c9_wave_after : Array2D (List Field) :=
  ⟨2, 2, [[tileN0], [tileN0], [tileWa], [tileE0]]⟩

/-- The decision tree after the C9 call: one recorded propagated change. -/
def c9_tree_after : DecisionTree :=
  ⟨[⟨[tileWa, tileWb], false, ⟨0, 1⟩⟩], [], [], 0⟩

/-- Advance the random stream cursor by one (one `gen_range` call). -/
def rngAdv (r : Rng) : Rng := ⟨r.vals, r.idx + 1⟩

/-- The decision tree after one iteration of the C8 loop: `decide` pushes the
`chosen` change and a decision, and the force-recorded propagation pushes one
more change; the forbidden set is untouched. -/
def c8_treeStep (t : DecisionTree) : DecisionTree :=
  ⟨⟨[tileF], false, ⟨0, 0⟩⟩ :: ⟨[tileF], true, ⟨0, 0⟩⟩ :: t.changes,
   ⟨(t.decisions.head?.map Decision.previous_id).getD none, ⟨0, 0⟩, tileF, t.id_counter⟩
     :: t.decisions,
   t.forbidden_decisions, t.id_counter + 1⟩

/-- The decision-tree invariant of claim C10: every decision on the stack and
in the forbidden set carries `previous_id = none`, and the forbidden set
holds at most one decision. -/
def treeInv (t : DecisionTree) : Prop :=
  (∀ d ∈ t.decisions, d.previous_id = none) ∧
  (∀ d ∈ t.forbidden_decisions, d.previous_id = none) ∧
  t.forbidden_decisions.length ≤ 1

/-- The operations through which the solver ever mutates a `DecisionTree`:
`decide`, a successful `forbid_last_decision`, pushing a `propagated` change
(`apply_contrainst_field`), and popping a change (`undo`). -/
inductive TreeStep : DecisionTree → DecisionTree → Prop where
  | stepDecide (t : DecisionTree) (wave : Array2D (List Field)) (pos : Coord)
      (f : Field) (t1 : DecisionTree) (h : DecisionTree.decide t wave pos f = .ok t1) :
      TreeStep t t1
  | stepForbid (t t1 : DecisionTree) (h : DecisionTree.forbid_last_decision t = .ok t1) :
      TreeStep t t1
  | stepPushChange (t : DecisionTree) (c : Change) (h : c.chosen = false) :
      TreeStep t { t with changes := c :: t.changes }
  | stepPopChange (t : DecisionTree) (c : Change) (rest : List Change)
      (h : t.changes = c :: rest) : TreeStep t { t with changes := rest }

/-- A decision tree reachable from `DecisionTree.new` by solver operations. -/
def ReachableTree (t : DecisionTree) : Prop :=
  Relation.ReflTransGen TreeStep DecisionTree.new t

/-- Intermediate tree of the C10 witness: `new` after one `decide`. -/
def c10_mid_tree : DecisionTree :=
  ⟨[⟨[tileF], true, ⟨0, 0⟩⟩], [⟨none, ⟨0, 0⟩, tileF, 0⟩], [], 1⟩

/-- Tree of the C10 witness: `c10_mid_tree` after `forbid_last_decision`. -/
def c10_example_tree : DecisionTree :=
  ⟨[⟨[tileF], true, ⟨0, 0⟩⟩], [], [⟨none, ⟨0, 0⟩, tileF, 0⟩], 1⟩

/-! Theorems settling the claims. -/

/-- Claim C1 (refuted, code bug): on the `c1` input, `collapse_wave` returns
`Ok` with a grid in which the two cells of the top row abut with labels
`i-a` (west side of `tileF`) against `p-h` (east side of `tileP`), which do
not satisfy `fits` — because `undo` never restores the snapshot of a popped
`chosen` change, a collapse that led to a contradiction stays in the wave. -/
theorem c1_code_eval :
    collapse_wave c1_params c1_rng 100 = .ok c1_returned ∧
    gridPairsFit c1_returned = false ∧
    fits (tileF.sides.getD 3 "") (tileP.sides.getD 1 "") = false := by
  refine ⟨?_, ?_, ?_⟩ <;> decide

/-- Claim C2: `collapse_wave` is a pure function of the catalog-and-boundary
parameters and the random seed stream, so two runs on identical inputs give
identical results (the same grid element for element, or the same error). -/
theorem c2_deterministic (p1 p2 : Params) (r1 r2 : Rng) (f1 f2 : Nat)
    (hp : p1 = p2) (hr : r1 = r2) (hf : f1 = f2) :
    collapse_wave p1 r1 f1 = collapse_wave p2 r2 f2 := by
  rw [hp, hr, hf]

/-- Witness for C2 at a concrete catalog, boundary, seed and fuel. -/
theorem c2_witness :
    collapse_wave c8_params c8_rng 5 = collapse_wave c8_params c8_rng 5 :=
  c2_deterministic c8_params c8_params c8_rng c8_rng 5 5 rfl rfl rfl

/-- Claim C3 (refuted, code bug): `undo` pops the most recent `chosen`
change but does not restore its snapshot: on the `c3` input the collapsed
cell keeps its singleton `[tileF]`, so the total entropy after `undo` is 1,
not the snapshot entropy 2 that existed immediately before the collapse. -/
theorem c3_code_eval :
    undo c3_wave c3_tree = .ok (c3_wave, c3_tree_after) ∧
    totalEntropy c3_wave = 1 ∧
    c3_tree.changes.head?.map (fun c => c.old.length) = some 2 := by
  refine ⟨?_, ?_, ?_⟩ <;> decide

/-- Claim C4 (refuted, code bug): on the `c4` input the single tied cell has
a candidate (`tileH`) that is not among its forbidden options, so by the
claim it must survive the filter and be returned; the source's inverted
retain predicate removes it and `find_lowest_entropy` fails with
`NotCollapsable`. -/
theorem c4_code_eval :
    find_lowest_entropy c4_params c8_rng c4_wave c4_tree = .notCollapsable ∧
    (((c4_wave.get 0 0).getD []).all
      (fun f => (DecisionTree.get_forbidden_options c4_tree ⟨0, 0⟩).contains f)) = false := by
  refine ⟨?_, ?_⟩ <;> decide

/-- Counterexample for C5: on `c5_tree` the popped decision has
`previous_id = some 5`; the entry `c5_e1` with the *same* `previous_id` is
removed from the forbidden set while the entry `c5_e2` with a *different*
`previous_id` is kept — the opposite of the claim's description. -/
theorem c5_counterexample :
    DecisionTree.forbid_last_decision c5_tree = .ok c5_tree_after ∧
    c5_e1.previous_id = c5_top.previous_id ∧
    c5_e1 ∉ c5_tree_after.forbidden_decisions ∧
    c5_e2.previous_id ≠ c5_top.previous_id ∧
    c5_e2 ∈ c5_tree_after.forbidden_decisions := by
  refine ⟨?_, ?_, ?_, ?_, ?_⟩ <;> decide

/-- Claim C7 (refuted, code bug): with a single-tile catalog the running
minimum starts at 1, so on the `c7` input `find_lowest_entropy` returns the
already-collapsed cell (candidate-list length 1) instead of reporting
"done". -/
theorem c7_code_eval :
    find_lowest_entropy c7_params c8_rng c7_wave DecisionTree.new =
      .ok (some ⟨0, 0⟩, rngAdv c8_rng) ∧
    (c7_wave.get 0 0).map List.length = some 1 := by
  refine ⟨?_, ?_⟩ <;> decide

/-- Claim C9 (refuted, code bug): for the leftmost-column cell `(0, 1)` the
propagator reads the west boundary at index `pos.x = 0`, not at `pos.y = 1`:
on the `c9` input the cell keeps `tileWa` (compatible with `west[0]`) and
drops `tileWb`, although `tileWb` is the candidate compatible with
`west[1]`, the entry the claim prescribes. -/
theorem c9_code_eval :
    apply_contrainst_field c9_params c9_wave DecisionTree.new ⟨0, 1⟩ false =
      .ok (c9_wave_after, c9_tree_after, [⟨1, 1⟩, ⟨0, 0⟩]) ∧
    c9_wave_after.get 1 0 = some [tileWa] ∧
    fits (tileW1.sides.getD 1 "") (tileWb.sides.getD 3 "") = true := by
  refine ⟨?_, ?_, ?_⟩ <;> decide

/-- Claim C6: whenever both edge labels have at least three `-`-separated
tokens and their third tokens are the same token starting with `u_`, `fits`
returns `false` — the uniqueness-collision rule fires before the shape/class
match rules, so the conclusion holds unconditionally on the shapes and
classes. -/
theorem c6_uniqueness_collision (a b : String) (t : List Char)
    (ha : 3 ≤ (splitDash a.data).length) (hb : 3 ≤ (splitDash b.data).length)
    (ha2 : (splitDash a.data).get? 2 = some t)
    (hb2 : (splitDash b.data).get? 2 = some t)
    (hu : startsWithU t = true) : fits a b = false := by
  have hga : (splitDash a.data).getD 2 ['n', 'o', 'n', 'e'] = t := by
    rw [List.getD_eq_getD_get?, ha2]; rfl
  have hgb : (splitDash b.data).getD 2 ['n', 'o', 'n', 'e'] = t := by
    rw [List.getD_eq_getD_get?, hb2]; rfl
  have hlen : ¬((splitDash a.data).length < 2 ∨ (splitDash b.data).length < 2) := by
    omega
  simp only [fits]
  rw [hga, hgb, if_neg hlen, if_pos ⟨hu, hu, rfl⟩]

/-- Witness for C6: both labels `i-a-u_k` — shapes `i`, equal classes, so
rule 3 would otherwise fire — still do not fit. -/
theorem c6_witness :
    3 ≤ (splitDash "i-a-u_k".data).length ∧
    (splitDash "i-a-u_k".data).get? 2 = some ['u', '_', 'k'] ∧
    startsWithU ['u', '_', 'k'] = true ∧
    fits "i-a-u_k" "i-a-u_k" = false :=
  ⟨by decide, by decide, by decide,
    c6_uniqueness_collision "i-a-u_k" "i-a-u_k" ['u', '_', 'k']
      (by decide) (by decide) (by decide) (by decide) (by decide)⟩

/-- Claim C5 (amended): `forbid_last_decision` fails with `NotCollapsable`
exactly when the decisions stack is empty; otherwise it removes from the
forbidden set exactly those entries whose `previous_id` *equals* the popped
top decision's `previous_id`, then pops that decision, inserts it into the
set and succeeds. -/
theorem c5_amended (t : DecisionTree) :
    (DecisionTree.forbid_last_decision t = .notCollapsable ↔ t.decisions = []) ∧
    (∀ top rest, t.decisions = top :: rest →
      ∃ t1, DecisionTree.forbid_last_decision t = .ok t1 ∧
        t1.decisions = rest ∧ t1.changes = t.changes ∧ t1.id_counter = t.id_counter ∧
        top ∈ t1.forbidden_decisions ∧
        (∀ d, d ∈ t.forbidden_decisions →
          (d ∈ t1.forbidden_decisions ↔ d.previous_id ≠ top.previous_id ∨ d = top)) ∧
        (∀ d, d ∈ t1.forbidden_decisions →
          d = top ∨ (d ∈ t.forbidden_decisions ∧ d.previous_id ≠ top.previous_id))) := by
  constructor
  · constructor
    · intro hne
      cases hdec : t.decisions with
      | nil => rfl
      | cons top rest =>
        unfold DecisionTree.forbid_last_decision at hne
        rw [hdec] at hne
        cases hne
    · intro hdec
      unfold DecisionTree.forbid_last_decision
      rw [hdec]
  · intro top rest hdec
    have hkept : ∀ d : Decision,
        d ∈ t.forbidden_decisions.filter (fun x => x.previous_id != top.previous_id) ↔
          d ∈ t.forbidden_decisions ∧ d.previous_id ≠ top.previous_id := by
      intro d
      simp [List.mem_filter]
    have hrun : DecisionTree.forbid_last_decision t = .ok
        { t with
          decisions := rest
          forbidden_decisions :=
            if top ∈ t.forbidden_decisions.filter (fun x => x.previous_id != top.previous_id)
            then t.forbidden_decisions.filter (fun x => x.previous_id != top.previous_id)
            else top :: t.forbidden_decisions.filter
              (fun x => x.previous_id != top.previous_id) } := by
      unfold DecisionTree.forbid_last_decision
      rw [hdec]
    refine ⟨_, hrun, rfl, rfl, rfl, ?_, ?_, ?_⟩
    · by_cases hm : top ∈ t.forbidden_decisions.filter
          (fun x => x.previous_id != top.previous_id)
      · rw [if_pos hm]; exact hm
      · rw [if_neg hm]; exact List.mem_cons_self top _
    · intro d hd
      by_cases hm : top ∈ t.forbidden_decisions.filter
          (fun x => x.previous_id != top.previous_id)
      · simp only [if_pos hm]
        constructor
        · intro hin
          exact Or.inl ((hkept d).mp hin).2
        · rintro (hne | rfl)
          · exact (hkept d).mpr ⟨hd, hne⟩
          · exact hm
      · simp only [if_neg hm, List.mem_cons]
        constructor
        · rintro (rfl | hin)
          · exact Or.inr rfl
          · exact Or.inl ((hkept d).mp hin).2
        · rintro (hne | rfl)
          · exact Or.inr ((hkept d).mpr ⟨hd, hne⟩)
          · exact Or.inl rfl
    · intro d hd
      by_cases hm : top ∈ t.forbidden_decisions.filter
          (fun x => x.previous_id != top.previous_id)
      · simp only [if_pos hm] at hd
        exact Or.inr ((hkept d).mp hd)
      · simp only [if_neg hm, List.mem_cons] at hd
        rcases hd with rfl | hin
        · exact Or.inl rfl
        · exact Or.inr ((hkept d).mp hin)

/-- Witness for the amended C5 at the concrete input `c5_tree`. -/
theorem c5_witness :
    ∃ t1, DecisionTree.forbid_last_decision c5_tree = .ok t1 ∧
      t1.decisions = [] ∧ t1.changes = c5_tree.changes ∧
      t1.id_counter = c5_tree.id_counter ∧
      c5_top ∈ t1.forbidden_decisions ∧
      (∀ d, d ∈ c5_tree.forbidden_decisions →
        (d ∈ t1.forbidden_decisions ↔ d.previous_id ≠ c5_top.previous_id ∨ d = c5_top)) ∧
      (∀ d, d ∈ t1.forbidden_decisions →
        d = c5_top ∨ (d ∈ c5_tree.forbidden_decisions ∧
          d.previous_id ≠ c5_top.previous_id)) :=
  (c5_amended c5_tree).2 c5_top [] rfl

/-- Every single solver operation preserves `treeInv`. -/
theorem treeStep_inv (t0 t1 : DecisionTree) (hstep : TreeStep t0 t1)
    (ih : treeInv t0) : treeInv t1 := by
  obtain ⟨ih1, ih2, ih3⟩ := ih
  cases hstep with
  | stepDecide wave pos f t1 heq =>
    unfold DecisionTree.decide at heq
    cases hw : wave.get pos.y pos.x with
    | none => rw [hw] at heq; cases heq
    | some old =>
      rw [hw] at heq
      injection heq with heq
      subst heq
      refine ⟨?_, ih2, ih3⟩
      intro d hd
      rcases List.mem_cons.mp hd with rfl | hmem
      · cases hdec : t0.decisions with
        | nil => simp [hdec]
        | cons a l =>
          simp only [hdec, List.head?_cons, Option.map_some', Option.getD_some]
          exact ih1 a (by rw [hdec]; exact List.mem_cons_self a l)
      · exact ih1 d hmem
  | stepForbid t1 heq =>
    unfold DecisionTree.forbid_last_decision at heq
    cases hdec : t0.decisions with
    | nil => rw [hdec] at heq; cases heq
    | cons top rest =>
      rw [hdec] at heq
      have htop : top.previous_id = none :=
        ih1 top (by rw [hdec]; exact List.mem_cons_self top rest)
      have hkept : List.filter (fun d => d.previous_id != top.previous_id)
          t0.forbidden_decisions = [] := by
        rw [List.filter_eq_nil_iff]
        intro d hd
        simp [ih2 d hd, htop]
      injection heq with heq
      subst heq
      rw [hkept, if_neg (List.not_mem_nil top)]
      refine ⟨?_, ?_, ?_⟩
      · intro d hd
        exact ih1 d (by rw [hdec]; exact List.mem_cons_of_mem top hd)
      · intro d hd
        rcases List.mem_singleton.mp hd with rfl
        exact htop
      · simp
  | stepPushChange c hc => exact ⟨ih1, ih2, ih3⟩
  | stepPopChange c rest hc => exact ⟨ih1, ih2, ih3⟩

/-- Claim C10: every decision tree reachable by solver operations satisfies
`treeInv`: all stacked and forbidden decisions carry `previous_id = none`
(`decide` copies the top's `previous_id`, never its `id`), and the forbidden
set holds at most one decision (each successful `forbid_last_decision`
first empties it, since its retain predicate removes every matching
`previous_id`, which is all of them, then inserts the popped decision). -/
theorem c10_invariant (t : DecisionTree) (h : ReachableTree t) : treeInv t := by
  induction h with
  | refl =>
    refine ⟨?_, ?_, ?_⟩
    · intro d hd; cases hd
    · intro d hd; cases hd
    · simp [DecisionTree.new]
  | tail hsteps hstep ih => exact treeStep_inv _ _ hstep ih

/-- Witness for C10 at a concrete reachable tree: `new`, one `decide`, one
`forbid_last_decision`. -/
theorem c10_witness : treeInv c10_example_tree :=
  c10_invariant c10_example_tree
    (Relation.ReflTransGen.tail
      (Relation.ReflTransGen.single
        (TreeStep.stepDecide DecisionTree.new c8_wave0 ⟨0, 0⟩ tileF c10_mid_tree
          (by decide)))
      (TreeStep.stepForbid c10_mid_tree c10_example_tree (by decide)))

/-- One full iteration of the C8 collapse loop with fuel to spare: the
selector returns the sole (already collapsed) cell, the collapse and the
force-recorded propagation leave the wave unchanged, the stream cursor
advances twice, and the tree grows by `c8_treeStep` — so the loop recurses
on an equivalent state. -/
theorem c8_loop_succ (m idx : Nat) (ch : List Change) (dec : List Decision) (idc : Nat) :
    collapse_loop c8_params ⟨[], idx⟩ c8_wave0 ⟨ch, dec, [], idc⟩ (m + 2) =
      collapse_loop c8_params ⟨[], idx + 2⟩ c8_wave0
        (c8_treeStep ⟨ch, dec, [], idc⟩) (m + 1) := rfl

/-- With fuel 1 the C8 loop starts an iteration but the inner propagation
runs out of fuel. -/
theorem c8_loop_one (idx : Nat) (ch : List Change) (dec : List Decision) (idc : Nat) :
    collapse_loop c8_params ⟨[], idx⟩ c8_wave0 ⟨ch, dec, [], idc⟩ 1 = .outOfFuel := rfl

/-- The C8 collapse loop exhausts every amount of fuel: on the single-tile
catalog the selector keeps returning the collapsed cell, so the loop never
reaches the "done" exit. -/
theorem c8_loop (n : Nat) :
    ∀ (idx : Nat) (ch : List Change) (dec : List Decision) (idc : Nat),
      collapse_loop c8_params ⟨[], idx⟩ c8_wave0 ⟨ch, dec, [], idc⟩ n = .outOfFuel := by
  induction n with
  | zero => intro idx ch dec idc; rfl
  | succ m ih =>
    intro idx ch dec idc
    cases m with
    | zero => exact c8_loop_one idx ch dec idc
    | succ k =>
      rw [c8_loop_succ k idx ch dec idc]
      exact ih (idx + 2) _ _ _

/-- Claim C8 (refuted, code bug): `collapse_wave` does not terminate on the
single-tile catalog `c8_params` (a 1 × 1 grid whose only tile fits itself):
for every fuel bound the run exhausts the fuel, because
`find_lowest_entropy` keeps returning the already collapsed cell and each
iteration re-collapses it to the same singleton. -/
theorem c8_nonterminating (fuel : Nat) :
    collapse_wave c8_params c8_rng fuel = .outOfFuel := by
  rcases fuel with _ | (_ | (_ | m))
  · rfl
  · rfl
  · rfl
  · have hseed : collapse_wave c8_params c8_rng (m + 3) =
        collapse_loop c8_params c8_rng c8_wave0 DecisionTree.new (m + 3) := rfl
    rw [hseed]
    exact c8_loop (m + 3) 0 [] [] 0

end Collapse
